import Mathlib

/-!
Verification of the dual-EMA universe-selection strategy
(`Algorithm.Python/EmaCrossUniverseSelectionAlgorithm.py`).

The per-symbol trend scorer (`SymbolData`) and the selection / allocation
callbacks are embedded from the Python source.  Prices and indicator values
are modelled as rationals (`ℚ`); the exponential-moving-average accumulator
(`ExponentialMovingAverage`), which the source imports from the surrounding
platform, is modelled from the spec.  A Python `NameError` (reading the
locals `fast`/`slow` when the guarded branch did not run) and the
`AttributeError` raised when the selection function reads the undefined
`symbol` attribute (the constructor stores `_symbol`) are modelled by
`Except.error ()`; all other paths return `Except.ok` with the result.
-/

/-- Modelled from the spec: the `ExponentialMovingAverage` accumulator is not
part of the given sources (it lives in the surrounding platform), so its state
is taken from §4.1 of the spec: a fixed window length `period` determining the
smoothing constant `α = 2 / (period + 1)`, the current smoothed value, and the
count of samples absorbed. -/
structure Ema where
  period : Nat
  count : Nat
  value : ℚ
deriving DecidableEq

/-- A fresh accumulator: no samples absorbed yet. -/
def Ema.mkPeriod (n : Nat) : Ema := ⟨n, 0, 0⟩

/-- The smoothing constant `α = 2 / (period + 1)`. -/
def Ema.alpha (e : Ema) : ℚ := 2 / ((e.period : ℚ) + 1)

/-- Modelled from the spec: on each sample, the first sample seeds the smoothed
value with the price, later samples apply
`value := α * price + (1 - α) * previous`; the update returns the readiness flag of the
accumulator, true once the count of absorbed samples has reached the window
length.  The timestamp argument of the source is required to be non-decreasing
but is not consumed by the recurrence, so it is omitted here. -/
def Ema.update (e : Ema) (price : ℚ) : Ema × Bool :=
  let v := if e.count = 0 then price else e.alpha * price + (1 - e.alpha) * e.value
  (⟨e.period, e.count + 1, v⟩, decide (e.period ≤ e.count + 1))

/-- The scale formula from `SymbolData.update`:
`(fast - slow) / ((fast + slow) / 2.0)`. -/
def scaleOf (fast slow : ℚ) : ℚ := (fast - slow) / ((fast + slow) / 2)

/-- State of `SymbolData` (`EmaCrossUniverseSelectionAlgorithm.py`, lines
80-96).  The constructor stores the identifier under the attribute `_symbol`
(line 82); these are the only attributes the class ever defines. -/
structure SymbolData where
  _symbol : String
  tolerance : ℚ
  fast : Ema
  slow : Ema
  is_uptrend : Bool
  scale : ℚ
deriving DecidableEq

/-- Constructor `SymbolData.__init__`: tolerance `1.01`, fast window 100, slow window 300,
`is_uptrend = False`, `scale = 0`. -/
def SymbolData.mkSymbol (s : String) : SymbolData :=
  { _symbol := s
    tolerance := 101 / 100
    fast := Ema.mkPeriod 100
    slow := Ema.mkPeriod 300
    is_uptrend := false
    scale := 0 }

/-- The attribute access `x.symbol` performed by `coarse_selection_function`
(lines 63 and 66): the constructor stores the identifier as `_symbol` and the
class defines no attribute or property named `symbol`, so every such read
raises `AttributeError`, modelled as `Except.error ()`. -/
def SymbolData.symbol (_x : SymbolData) : Except Unit String := Except.error ()

/-- Method `SymbolData.update(self, time, value)`.  The Python `and` short-circuits:
`self.slow.update` runs only when `self.fast.update` returned a true readiness
flag.  When the guarded branch does not run and `self.is_uptrend` is true, the
final line reads the unbound locals `fast`/`slow`, a `NameError`, modelled as
`Except.error ()`.  Otherwise the new state is returned. -/
def SymbolData.update (sd : SymbolData) (value : ℚ) : Except Unit SymbolData :=
  match sd.fast.update value with
  | (f1, false) =>
    if sd.is_uptrend then Except.error () else Except.ok { sd with fast := f1 }
  | (f1, true) =>
    match sd.slow.update value with
    | (s1, false) =>
      if sd.is_uptrend then Except.error ()
      else Except.ok { sd with fast := f1, slow := s1 }
    | (s1, true) =>
      if s1.value * sd.tolerance < f1.value then
        Except.ok { sd with fast := f1, slow := s1, is_uptrend := true,
                            scale := scaleOf f1.value s1.value }
      else
        Except.ok { sd with fast := f1, slow := s1, is_uptrend := false }

/-- Readiness condition of the `update` guard, spelled out: the flag the fast
accumulator returns for this sample, and the flag the slow accumulator would
return for it. -/
def SymbolData.bothReady (sd : SymbolData) (value : ℚ) : Bool :=
  (sd.fast.update value).2 && (sd.slow.update value).2

/-- Feed a sequence of prices through `SymbolData.update`, stopping at the
first error. -/
def runUpdates : SymbolData → List ℚ → Except Unit SymbolData
  | sd, [] => Except.ok sd
  | sd, p :: ps =>
    match sd.update p with
    | Except.ok sd' => runUpdates sd' ps
    | Except.error e => Except.error e

/-- The ordering used by `coarse_selection_function`:
`values.sort(key=lambda x: x.scale, reverse=True)` places `a` no later than `b`
exactly when `b.scale ≤ a.scale` (descending by scale; Python sort is stable). -/
def scaleGE (a b : SymbolData) : Prop := b.scale ≤ a.scale

instance : DecidableRel scaleGE :=
  fun a b => inferInstanceAs (Decidable (b.scale ≤ a.scale))

instance : IsTotal SymbolData scaleGE := ⟨fun a b => le_total b.scale a.scale⟩

instance : IsTrans SymbolData scaleGE := ⟨fun _ _ _ h1 h2 => le_trans h2 h1⟩

/-- The member `self.coarse_count = 10`, set in the algorithm setup. -/
def coarse_count : Nat := 10

/-- The selection part of `coarse_selection_function` (lines 56-66): filter
the tracked `SymbolData` values for `is_uptrend`, sort them by `scale`
descending with a stable sort, truncate to the first `coarse_count`, then the
log loop (lines 62-63) reads `x.symbol.value` for each ranked instance and
the return list (line 66) reads `x.symbol` again.  Each of those reads is the
fallible attribute access `SymbolData.symbol`, so the function raises as soon
as the ranked prefix is non-empty.  The argument is the value list of the
dictionary in insertion order. -/
def coarse_selection_function (averages : List SymbolData) : Except Unit (List String) :=
  let values := averages.filter (fun x => x.is_uptrend)
  let sorted := values.insertionSort scaleGE
  do
    let _ ← (sorted.take coarse_count).mapM (fun x => x.symbol)
    (sorted.take coarse_count).mapM (fun x => x.symbol)

/-- A security as seen by `on_securities_changed`: its symbol and whether the
portfolio currently holds a position in it. -/
structure Security where
  symbol : String
  invested : Bool
deriving DecidableEq

/-- The added/removed sets delivered to `on_securities_changed`. -/
structure SecurityChanges where
  removed_securities : List Security
  added_securities : List Security

/-- The portfolio operations the handler can issue. -/
inductive PortfolioAction where
  | liquidate (symbol : String)
  | set_holdings (symbol : String) (allocation : ℚ)
deriving DecidableEq

/-- Handler `on_securities_changed` (lines 69-77): liquidate each removed security
that is invested, then `set_holdings(symbol, 0.1)` for each added security.
The handler is embedded as the list of portfolio actions it issues, in
order. -/
def on_securities_changed (changes : SecurityChanges) : List PortfolioAction :=
  ((changes.removed_securities.filter (fun s => s.invested)).map
      (fun s => PortfolioAction.liquidate s.symbol))
    ++ changes.added_securities.map
        (fun s => PortfolioAction.set_holdings s.symbol (1 / 10))

/-- The state invariant ruling out the `NameError` branch: whenever
`is_uptrend` is true, both accumulators have already reached their warm-up
thresholds (so their readiness flags stay true forever). -/
def ReadyInv (sd : SymbolData) : Prop :=
  sd.is_uptrend = true → sd.fast.period ≤ sd.fast.count ∧ sd.slow.period ≤ sd.slow.count

/-- Invariant `ReadyInv` together with the concrete window lengths 100 and 300. -/
def BaseInv (sd : SymbolData) : Prop :=
  ReadyInv sd ∧ sd.fast.period = 100 ∧ sd.slow.period = 300

/-- The warm-up invariant for C2: `BaseInv` plus: while the slow accumulator
has absorbed fewer than 300 samples, `is_uptrend` is false and `scale` is 0. -/
def WarmInv (sd : SymbolData) : Prop :=
  BaseInv sd ∧ (sd.slow.count < 300 → sd.is_uptrend = false ∧ sd.scale = 0)

/-- A scorer whose accumulators are both past warm-up, used to evaluate the
ready-path claims on concrete numbers. -/
def sdReadyW : SymbolData := ⟨"W", 101/100, ⟨100, 150, 200⟩, ⟨300, 350, 100⟩, false, 0⟩

/-- The positivity invariant for C10: `BaseInv`, tolerance at least 1, seeded
accumulator values strictly positive, `scale` non-negative, and `scale`
strictly positive whenever `is_uptrend` is set. -/
def PosInv (sd : SymbolData) : Prop :=
  BaseInv sd ∧ 1 ≤ sd.tolerance ∧
    (sd.fast.count ≠ 0 → 0 < sd.fast.value) ∧ (sd.slow.count ≠ 0 → 0 < sd.slow.value) ∧
    0 ≤ sd.scale ∧ (sd.is_uptrend = true → 0 < sd.scale)

/-! ### Basic facts about the accumulator and the control flow of the update -/

theorem Ema.update_fst (e : Ema) (p : ℚ) :
    (e.update p).1 = ⟨e.period, e.count + 1,
      if e.count = 0 then p else e.alpha * p + (1 - e.alpha) * e.value⟩ := rfl

theorem Ema.update_snd (e : Ema) (p : ℚ) :
    (e.update p).2 = decide (e.period ≤ e.count + 1) := rfl

theorem Ema.update_count (e : Ema) (p : ℚ) : (e.update p).1.count = e.count + 1 := rfl

theorem Ema.update_period (e : Ema) (p : ℚ) : (e.update p).1.period = e.period := rfl

/-- Readiness is monotone: an accumulator that has already reached its warm-up
threshold reports ready on every later sample. -/
theorem Ema.update_ready_of_ready (e : Ema) (p : ℚ) (h : e.period ≤ e.count) :
    (e.update p).2 = true := by
  rw [Ema.update_snd, decide_eq_true_iff]
  exact Nat.le_succ_of_le h

theorem Ema.count_of_update {e : Ema} {p : ℚ} {f : Ema} {b : Bool}
    (h : e.update p = (f, b)) : f.count = e.count + 1 := by
  have h1 := congrArg (fun x : Ema × Bool => x.1.count) h
  simpa [Ema.update_count] using h1.symm

theorem Ema.period_of_update {e : Ema} {p : ℚ} {f : Ema} {b : Bool}
    (h : e.update p = (f, b)) : f.period = e.period := by
  have h1 := congrArg (fun x : Ema × Bool => x.1.period) h
  simpa [Ema.update_period] using h1.symm

theorem Ema.value_of_update {e : Ema} {p : ℚ} {f : Ema} {b : Bool}
    (h : e.update p = (f, b)) :
    f.value = if e.count = 0 then p else e.alpha * p + (1 - e.alpha) * e.value := by
  have h1 := congrArg (fun x : Ema × Bool => x.1.value) h
  simpa [Ema.update_fst] using h1.symm

theorem Ema.ready_of_update {e : Ema} {p : ℚ} {f : Ema} {b : Bool}
    (h : e.update p = (f, b)) : b = decide (e.period ≤ e.count + 1) := by
  have h1 := congrArg (fun x : Ema × Bool => x.2) h
  simpa [Ema.update_snd] using h1.symm

theorem Ema.le_count_of_update_true {e : Ema} {p : ℚ} {f : Ema}
    (h : e.update p = (f, true)) : f.period ≤ f.count := by
  have hb := Ema.ready_of_update h
  have hle : e.period ≤ e.count + 1 := by
    simpa [decide_eq_true_iff] using hb.symm
  rw [Ema.period_of_update h, Ema.count_of_update h]
  exact hle

/-- Exhaustive description of `SymbolData.update`: either the fast accumulator
is not ready (slow never updated), or fast is ready and slow is not, or both
are ready and `is_uptrend`/`scale` are recomputed. -/
theorem SymbolData.update_cases (sd : SymbolData) (p : ℚ) :
    (∃ f1, sd.fast.update p = (f1, false) ∧
      sd.update p = if sd.is_uptrend then Except.error ()
        else Except.ok { sd with fast := f1 }) ∨
    (∃ f1 s1, sd.fast.update p = (f1, true) ∧ sd.slow.update p = (s1, false) ∧
      sd.update p = if sd.is_uptrend then Except.error ()
        else Except.ok { sd with fast := f1, slow := s1 }) ∨
    (∃ f1 s1, sd.fast.update p = (f1, true) ∧ sd.slow.update p = (s1, true) ∧
      sd.update p = if s1.value * sd.tolerance < f1.value then
          Except.ok { sd with fast := f1, slow := s1, is_uptrend := true,
                              scale := scaleOf f1.value s1.value }
        else Except.ok { sd with fast := f1, slow := s1, is_uptrend := false }) := by
  rcases hfu : sd.fast.update p with ⟨f1, fb⟩
  cases fb with
  | false => exact Or.inl ⟨f1, rfl, by rw [SymbolData.update, hfu]⟩
  | true =>
    rcases hsu : sd.slow.update p with ⟨s1, sb⟩
    cases sb with
    | false => exact Or.inr (Or.inl ⟨f1, s1, rfl, rfl, by rw [SymbolData.update, hfu, hsu]⟩)
    | true => exact Or.inr (Or.inr ⟨f1, s1, rfl, rfl, by rw [SymbolData.update, hfu, hsu]⟩)

/-- A successful update never changes the symbol or the tolerance, and always
stores the updated fast accumulator. -/
theorem SymbolData.update_ok_frame {sd : SymbolData} {p : ℚ} {sd' : SymbolData}
    (h : sd.update p = Except.ok sd') :
    sd'._symbol = sd._symbol ∧ sd'.tolerance = sd.tolerance ∧
      sd'.fast = (sd.fast.update p).1 := by
  rcases sd.update_cases p with ⟨f1, hf, heq⟩ | ⟨f1, s1, hf, hs, heq⟩ | ⟨f1, s1, hf, hs, heq⟩ <;>
      rw [heq] at h <;> split at h
  · exact Except.noConfusion h
  · obtain rfl := (Except.ok.inj h).symm
    simp [hf]
  · exact Except.noConfusion h
  · obtain rfl := (Except.ok.inj h).symm
    simp [hf]
  · obtain rfl := (Except.ok.inj h).symm
    simp [hf]
  · obtain rfl := (Except.ok.inj h).symm
    simp [hf]

/-- When the fast accumulator reports ready, a successful update stores the
updated slow accumulator. -/
theorem SymbolData.update_ok_slow_of_fastReady {sd : SymbolData} {p : ℚ} {sd' : SymbolData}
    (hfr : (sd.fast.update p).2 = true) (h : sd.update p = Except.ok sd') :
    sd'.slow = (sd.slow.update p).1 := by
  rcases sd.update_cases p with ⟨f1, hf, heq⟩ | ⟨f1, s1, hf, hs, heq⟩ | ⟨f1, s1, hf, hs, heq⟩
  · rw [hf] at hfr
    exact absurd hfr (by simp)
  · rw [heq] at h
    split at h
    · exact absurd h (by simp)
    · obtain rfl := (Except.ok.inj h).symm
      simp [hs]
  · rw [heq] at h
    split at h <;>
      (obtain rfl := (Except.ok.inj h).symm; simp [hs])

/-- When the fast accumulator is not ready, the slow accumulator is not
touched at all (the Python `and` short-circuits). -/
theorem SymbolData.update_ok_slow_of_fastNotReady {sd : SymbolData} {p : ℚ} {sd' : SymbolData}
    (hfr : (sd.fast.update p).2 = false) (h : sd.update p = Except.ok sd') :
    sd'.slow = sd.slow := by
  rcases sd.update_cases p with ⟨f1, hf, heq⟩ | ⟨f1, s1, hf, hs, heq⟩ | ⟨f1, s1, hf, hs, heq⟩
  · rw [heq] at h
    split at h
    · exact absurd h (by simp)
    · obtain rfl := (Except.ok.inj h).symm
      rfl
  · rw [hf] at hfr
    exact absurd hfr (by simp)
  · rw [hf] at hfr
    exact absurd hfr (by simp)

/-- When both readiness flags are true, a successful update recomputes
`is_uptrend` as the tolerance-weighted comparison of the two fresh values. -/
theorem SymbolData.update_ok_uptrend_bothReady {sd : SymbolData} {p : ℚ} {sd' : SymbolData}
    (hb : sd.bothReady p = true) (h : sd.update p = Except.ok sd') :
    sd'.is_uptrend
      = decide ((sd.slow.update p).1.value * sd.tolerance < (sd.fast.update p).1.value) := by
  have hf2 : (sd.fast.update p).2 = true := by
    have := hb
    rw [SymbolData.bothReady, Bool.and_eq_true] at this
    exact this.1
  have hs2 : (sd.slow.update p).2 = true := by
    have := hb
    rw [SymbolData.bothReady, Bool.and_eq_true] at this
    exact this.2
  rcases sd.update_cases p with ⟨f1, hf, heq⟩ | ⟨f1, s1, hf, hs, heq⟩ | ⟨f1, s1, hf, hs, heq⟩
  · rw [hf] at hf2
    exact absurd hf2 (by simp)
  · rw [hs] at hs2
    exact absurd hs2 (by simp)
  · rw [heq] at h
    rw [hf, hs]
    split at h <;> obtain rfl := (Except.ok.inj h).symm
    · simpa using (by assumption : s1.value * sd.tolerance < f1.value)
    · simpa using (by assumption : ¬s1.value * sd.tolerance < f1.value)

/-- When the readiness flags are not both true, a successful update leaves
`is_uptrend` untouched. -/
theorem SymbolData.update_ok_uptrend_not_bothReady {sd : SymbolData} {p : ℚ} {sd' : SymbolData}
    (hb : sd.bothReady p = false) (h : sd.update p = Except.ok sd') :
    sd'.is_uptrend = sd.is_uptrend := by
  rcases sd.update_cases p with ⟨f1, hf, heq⟩ | ⟨f1, s1, hf, hs, heq⟩ | ⟨f1, s1, hf, hs, heq⟩
  · rw [heq] at h
    split at h
    · exact absurd h (by simp)
    · obtain rfl := (Except.ok.inj h).symm
      rfl
  · rw [heq] at h
    split at h
    · exact absurd h (by simp)
    · obtain rfl := (Except.ok.inj h).symm
      rfl
  · rw [SymbolData.bothReady] at hb
    have hf2 : (sd.fast.update p).2 = true := by rw [hf]
    have hs2 : (sd.slow.update p).2 = true := by rw [hs]
    rw [hf2, hs2] at hb
    exact absurd hb (by simp)

/-- When the new state reports an uptrend, its scale was freshly recomputed
from the freshly stored accumulator values. -/
theorem SymbolData.update_ok_scale_uptrend {sd : SymbolData} {p : ℚ} {sd' : SymbolData}
    (h : sd.update p = Except.ok sd') (hu : sd'.is_uptrend = true) :
    sd'.scale = scaleOf sd'.fast.value sd'.slow.value := by
  rcases sd.update_cases p with ⟨f1, hf, heq⟩ | ⟨f1, s1, hf, hs, heq⟩ | ⟨f1, s1, hf, hs, heq⟩ <;>
    rw [heq] at h
  · split at h
    · exact absurd h (by simp)
    · obtain rfl := (Except.ok.inj h).symm
      simp_all
  · split at h
    · exact absurd h (by simp)
    · obtain rfl := (Except.ok.inj h).symm
      simp_all
  · split at h <;> obtain rfl := (Except.ok.inj h).symm
    · rfl
    · simp at hu

/-- When the new state does not report an uptrend, its scale is exactly the
previous scale. -/
theorem SymbolData.update_ok_scale_not_uptrend {sd : SymbolData} {p : ℚ} {sd' : SymbolData}
    (h : sd.update p = Except.ok sd') (hu : sd'.is_uptrend = false) :
    sd'.scale = sd.scale := by
  rcases sd.update_cases p with ⟨f1, hf, heq⟩ | ⟨f1, s1, hf, hs, heq⟩ | ⟨f1, s1, hf, hs, heq⟩ <;>
    rw [heq] at h
  · split at h
    · exact absurd h (by simp)
    · obtain rfl := (Except.ok.inj h).symm
      rfl
  · split at h
    · exact absurd h (by simp)
    · obtain rfl := (Except.ok.inj h).symm
      rfl
  · split at h <;> obtain rfl := (Except.ok.inj h).symm
    · simp at hu
    · rfl

theorem Ema.alpha_pos (e : Ema) : 0 < e.alpha := by
  rw [Ema.alpha]
  positivity

theorem Ema.alpha_le_one (e : Ema) (h : 1 ≤ e.period) : e.alpha ≤ 1 := by
  rw [Ema.alpha, div_le_one (by positivity)]
  have : (1 : ℚ) ≤ (e.period : ℚ) := by exact_mod_cast h
  linarith

/-- Positive inputs keep the value of a seeded accumulator positive (window length
at least 1, as for the 100- and 300-sample windows here). -/
theorem Ema.update_value_pos {e : Ema} {p : ℚ} (hper : 1 ≤ e.period) (hp : 0 < p)
    (hv : e.count = 0 ∨ 0 < e.value) : 0 < (e.update p).1.value := by
  rw [Ema.update_fst]
  by_cases hc : e.count = 0
  · simpa [hc] using hp
  · have hval : 0 < e.value := hv.resolve_left hc
    have h1 : 0 < e.alpha * p := mul_pos e.alpha_pos hp
    have h2 : 0 ≤ (1 - e.alpha) * e.value :=
      mul_nonneg (by linarith [e.alpha_le_one hper]) hval.le
    simp only [hc, if_false]
    linarith

/-- The EMA recurrence has the input price as its only fixed point: once
seeded, the smoothed value is unchanged by a sample exactly when the sample
equals the current smoothed value. -/
theorem Ema.update_value_eq_iff {e : Ema} {p : ℚ} (hc : e.count ≠ 0) :
    (e.update p).1.value = e.value ↔ p = e.value := by
  rw [Ema.update_fst]
  simp only [hc, if_false]
  have hα : e.alpha ≠ 0 := ne_of_gt e.alpha_pos
  constructor
  · intro h
    have h2 : e.alpha * (p - e.value) = 0 := by linarith
    have h3 : p - e.value = 0 := by
      rcases mul_eq_zero.mp h2 with h' | h'
      · exact absurd h' hα
      · exact h'
    linarith
  · intro h
    rw [h]
    ring

/-- Invariants preserved by every successful step are preserved by `runUpdates`,
and no error occurs along the way. -/
theorem runUpdates_inv (P : SymbolData → Prop) (Q : ℚ → Prop)
    (hstep : ∀ sd p, Q p → P sd → ∃ sd', sd.update p = Except.ok sd' ∧ P sd') :
    ∀ (ps : List ℚ) (sd : SymbolData), (∀ p ∈ ps, Q p) → P sd →
      ∃ sd', runUpdates sd ps = Except.ok sd' ∧ P sd' := by
  intro ps
  induction ps with
  | nil => exact fun sd _ h => ⟨sd, rfl, h⟩
  | cons p ps ih =>
    intro sd hq hp
    obtain ⟨sd1, h1, hp1⟩ := hstep sd p (hq p (List.mem_cons_self p ps)) hp
    obtain ⟨sd2, h2, hp2⟩ := ih sd1 (fun q hqm => hq q (List.mem_cons_of_mem p hqm)) hp1
    exact ⟨sd2, by rw [runUpdates, h1]; exact h2, hp2⟩

/-- A successful update never changes the window length of either accumulator. -/
theorem SymbolData.update_ok_periods {sd : SymbolData} {p : ℚ} {sd' : SymbolData}
    (h : sd.update p = Except.ok sd') :
    sd'.fast.period = sd.fast.period ∧ sd'.slow.period = sd.slow.period := by
  constructor
  · rw [(SymbolData.update_ok_frame h).2.2, Ema.update_period]
  · rcases hb : (sd.fast.update p).2 with _ | _
    · rw [SymbolData.update_ok_slow_of_fastNotReady hb h]
    · rw [SymbolData.update_ok_slow_of_fastReady hb h, Ema.update_period]

/-- From a state that is not in an uptrend, an update always succeeds (the
`NameError` branch needs `is_uptrend` to be true). -/
theorem SymbolData.update_ok_of_not_uptrend {sd : SymbolData} (p : ℚ)
    (hu : sd.is_uptrend = false) : ∃ sd', sd.update p = Except.ok sd' := by
  rcases sd.update_cases p with ⟨f1, hf, heq⟩ | ⟨f1, s1, hf, hs, heq⟩ | ⟨f1, s1, hf, hs, heq⟩
  · exact ⟨_, by rw [heq, if_neg (by simp [hu])]⟩
  · exact ⟨_, by rw [heq, if_neg (by simp [hu])]⟩
  · by_cases hcmp : s1.value * sd.tolerance < f1.value
    · exact ⟨_, by rw [heq, if_pos hcmp]⟩
    · exact ⟨_, by rw [heq, if_neg hcmp]⟩

/-- On a successful call where the readiness flags are not both true, neither
`is_uptrend` nor `scale` is modified, and `is_uptrend` was false to begin
with. -/
theorem SymbolData.update_ok_not_bothReady_frame {sd : SymbolData} {p : ℚ} {sd' : SymbolData}
    (hb : sd.bothReady p = false) (h : sd.update p = Except.ok sd') :
    sd'.is_uptrend = sd.is_uptrend ∧ sd'.scale = sd.scale ∧ sd.is_uptrend = false := by
  have hup := SymbolData.update_ok_uptrend_not_bothReady hb h
  rcases sd.update_cases p with ⟨f1, hf, heq⟩ | ⟨f1, s1, hf, hs, heq⟩ | ⟨f1, s1, hf, hs, heq⟩
  · rw [heq] at h
    split at h
    · exact Except.noConfusion h
    · obtain rfl := (Except.ok.inj h).symm
      exact ⟨rfl, rfl, by simpa using ‹¬sd.is_uptrend = true›⟩
  · rw [heq] at h
    split at h
    · exact Except.noConfusion h
    · obtain rfl := (Except.ok.inj h).symm
      exact ⟨rfl, rfl, by simpa using ‹¬sd.is_uptrend = true›⟩
  · rw [SymbolData.bothReady] at hb
    have hf2 : (sd.fast.update p).2 = true := by rw [hf]
    have hs2 : (sd.slow.update p).2 = true := by rw [hs]
    rw [hf2, hs2] at hb
    exact absurd hb (by simp)

theorem readyInv_mkSymbol (s : String) : ReadyInv (SymbolData.mkSymbol s) := by
  intro h
  simp [SymbolData.mkSymbol] at h

/-- One step preserves `ReadyInv` and cannot error. -/
theorem readyInv_step (sd : SymbolData) (p : ℚ) (hp : ReadyInv sd) :
    ∃ sd', sd.update p = Except.ok sd' ∧ ReadyInv sd' := by
  rcases sd.update_cases p with ⟨f1, hf, heq⟩ | ⟨f1, s1, hf, hs, heq⟩ | ⟨f1, s1, hf, hs, heq⟩
  · have hup : sd.is_uptrend = false := by
      by_contra h
      rw [Bool.not_eq_false] at h
      have hle := (hp h).1
      have : (sd.fast.update p).2 = true := sd.fast.update_ready_of_ready p hle
      rw [hf] at this
      exact Bool.false_ne_true this
    refine ⟨{ sd with fast := f1 }, by rw [heq, if_neg (by simp [hup])], ?_⟩
    intro h
    exact absurd h (by simp [hup])
  · have hup : sd.is_uptrend = false := by
      by_contra h
      rw [Bool.not_eq_false] at h
      have hle := (hp h).2
      have : (sd.slow.update p).2 = true := sd.slow.update_ready_of_ready p hle
      rw [hs] at this
      exact Bool.false_ne_true this
    refine ⟨{ sd with fast := f1, slow := s1 }, by rw [heq, if_neg (by simp [hup])], ?_⟩
    intro h
    exact absurd h (by simp [hup])
  · have hfc : f1.period ≤ f1.count := Ema.le_count_of_update_true hf
    have hsc : s1.period ≤ s1.count := Ema.le_count_of_update_true hs
    rw [heq]
    by_cases hcmp : s1.value * sd.tolerance < f1.value
    · refine ⟨_, by rw [if_pos hcmp], ?_⟩
      intro _
      exact ⟨hfc, hsc⟩
    · refine ⟨_, by rw [if_neg hcmp], ?_⟩
      intro h
      exact absurd h (by simp)

theorem baseInv_mkSymbol (s : String) : BaseInv (SymbolData.mkSymbol s) :=
  ⟨readyInv_mkSymbol s, rfl, rfl⟩

theorem baseInv_step (sd : SymbolData) (p : ℚ) (hp : BaseInv sd) :
    ∃ sd', sd.update p = Except.ok sd' ∧ BaseInv sd' := by
  obtain ⟨sd', hok, hready⟩ := readyInv_step sd p hp.1
  obtain ⟨hfp, hsp⟩ := SymbolData.update_ok_periods hok
  exact ⟨sd', hok, hready, by rw [hfp]; exact hp.2.1, by rw [hsp]; exact hp.2.2⟩

/-! ### Claims -/

/-- C1 (counterexample): on the very first call, the fast accumulator absorbs
the sample but the slow accumulator does not (its count stays 0), because the
Python `and` short-circuits while the fast accumulator is not yet ready — so
it is not the case that both accumulators absorb the sample on every call. -/
theorem C1_counterexample :
    ((SymbolData.mkSymbol "A").update 1).map (fun sd => sd.slow.count) = Except.ok 0 ∧
    ((SymbolData.mkSymbol "A").update 1).map (fun sd => sd.fast.count) = Except.ok 1 ∧
    (SymbolData.mkSymbol "A").slow.count = 0 :=
  ⟨rfl, rfl, rfl⟩

/-- C1 (amended): on every successful call to `SymbolData.update`,
`fast_average` absorbs the sample; `slow_average` absorbs it exactly on the
calls where the update of `fast_average` reports ready, and is not touched at all
on the other calls (the conjunction in the guard short-circuits). -/
theorem C1_fast_always_slow_when_fast_ready
    {sd : SymbolData} {p : ℚ} {sd' : SymbolData} (h : sd.update p = Except.ok sd') :
    sd'.fast.count = sd.fast.count + 1 ∧
    ((sd.fast.update p).2 = true → sd'.slow.count = sd.slow.count + 1) ∧
    ((sd.fast.update p).2 = false → sd'.slow = sd.slow) := by
  refine ⟨?_, ?_, ?_⟩
  · rw [(SymbolData.update_ok_frame h).2.2, Ema.update_count]
  · intro hfr
    rw [SymbolData.update_ok_slow_of_fastReady hfr h, Ema.update_count]
  · intro hfr
    exact SymbolData.update_ok_slow_of_fastNotReady hfr h

/-- C1 (witness): the amended statement evaluated on a fresh scorer at price
1: the fast count rises to 1 and the slow accumulator stays untouched. -/
theorem C1_witness :
    (⟨"A", 101/100, ⟨100, 1, 1⟩, ⟨300, 0, 0⟩, false, 0⟩ : SymbolData).fast.count
        = (SymbolData.mkSymbol "A").fast.count + 1 ∧
    (⟨"A", 101/100, ⟨100, 1, 1⟩, ⟨300, 0, 0⟩, false, 0⟩ : SymbolData).slow
        = (SymbolData.mkSymbol "A").slow := by
  have h : (SymbolData.mkSymbol "A").update 1
      = Except.ok ⟨"A", 101/100, ⟨100, 1, 1⟩, ⟨300, 0, 0⟩, false, 0⟩ := by rfl
  have hc := C1_fast_always_slow_when_fast_ready h
  exact ⟨hc.1, hc.2.2 (by rfl)⟩

theorem warmInv_step (sd : SymbolData) (p : ℚ) (hp : WarmInv sd) :
    ∃ sd', sd.update p = Except.ok sd' ∧ WarmInv sd' := by
  obtain ⟨sd', hok, hbase⟩ := baseInv_step sd p hp.1
  refine ⟨sd', hok, hbase, ?_⟩
  intro hlt
  rcases hfb : (sd.fast.update p).2 with _ | _
  · have hslow := SymbolData.update_ok_slow_of_fastNotReady hfb hok
    have hb : sd.bothReady p = false := by
      rw [SymbolData.bothReady, hfb, Bool.false_and]
    obtain ⟨hu, hsc, _⟩ := SymbolData.update_ok_not_bothReady_frame hb hok
    have hold := hp.2 (by rw [← hslow]; exact hlt)
    exact ⟨by rw [hu, hold.1], by rw [hsc, hold.2]⟩
  · have hslow := SymbolData.update_ok_slow_of_fastReady hfb hok
    have hcnt : sd'.slow.count = sd.slow.count + 1 := by
      rw [hslow, Ema.update_count]
    have hsb : (sd.slow.update p).2 = false := by
      rw [Ema.update_snd, decide_eq_false_iff_not]
      intro hge
      rw [hcnt] at hlt
      have h300 := hp.1.2.2
      omega
    have hb : sd.bothReady p = false := by
      rw [SymbolData.bothReady, hsb, Bool.and_false]
    obtain ⟨hu, hsc, _⟩ := SymbolData.update_ok_not_bothReady_frame hb hok
    have hold := hp.2 (by rw [hcnt] at hlt; omega)
    exact ⟨by rw [hu, hold.1], by rw [hsc, hold.2]⟩

/-- C2: from a fresh 100/300 scorer, every sequence of update calls succeeds
(no error is raised), and as long as the slow accumulator has absorbed fewer
than 300 samples — its warm-up threshold — `is_uptrend` is still false and
`scale` is still 0, regardless of the prices fed in. -/
theorem C2_warmup_gating (s : String) (ps : List ℚ) :
    ∃ sd', runUpdates (SymbolData.mkSymbol s) ps = Except.ok sd' ∧
      (sd'.slow.count < 300 → sd'.is_uptrend = false ∧ sd'.scale = 0) := by
  obtain ⟨sd', hrun, hinv⟩ :=
    runUpdates_inv WarmInv (fun _ => True)
      (fun sd p _ hp => warmInv_step sd p hp) ps (SymbolData.mkSymbol s)
      (fun _ _ => trivial)
      ⟨baseInv_mkSymbol s, fun _ => ⟨rfl, rfl⟩⟩
  exact ⟨sd', hrun, hinv.2⟩

/-- C2 (witness): one call on a fresh scorer leaves the state error-free with
`is_uptrend = false` and `scale = 0`. -/
theorem C2_witness :
    (⟨"A", 101/100, ⟨100, 1, 1⟩, ⟨300, 0, 0⟩, false, 0⟩ : SymbolData).is_uptrend = false ∧
    (⟨"A", 101/100, ⟨100, 1, 1⟩, ⟨300, 0, 0⟩, false, 0⟩ : SymbolData).scale = 0 := by
  obtain ⟨sd', hrun, hw⟩ := C2_warmup_gating "A" [1]
  have hS : runUpdates (SymbolData.mkSymbol "A") [1]
      = Except.ok ⟨"A", 101/100, ⟨100, 1, 1⟩, ⟨300, 0, 0⟩, false, 0⟩ := by rfl
  obtain rfl := Except.ok.inj (hS.symm.trans hrun)
  exact hw (by decide)

/-- The state `sdReadyW` reaches after one update at price 200: both flags
ready, test passes, scale freshly computed. -/
theorem sdReadyW_update :
    sdReadyW.update 200
      = Except.ok ⟨"W", 101/100, ⟨100, 151, 200⟩, ⟨300, 351, 30300/301⟩, true, 598/905⟩ := by
  norm_num [SymbolData.update, Ema.update, Ema.alpha, scaleOf, sdReadyW]

/-- C3: the tolerance is fixed at 1.01 by the constructor, and on every
successful update call `is_uptrend` is recomputed as
`fast_average.value > slow_average.value * tolerance` exactly when both
accumulators report ready on that call, and is left untouched otherwise. -/
theorem C3_uptrend_recompute :
    (∀ s, (SymbolData.mkSymbol s).tolerance = 101 / 100) ∧
    ∀ (sd : SymbolData) (p : ℚ) (sd' : SymbolData), sd.update p = Except.ok sd' →
      (sd.bothReady p = true →
        sd'.is_uptrend = decide
          ((sd.slow.update p).1.value * sd.tolerance < (sd.fast.update p).1.value)) ∧
      (sd.bothReady p = false → sd'.is_uptrend = sd.is_uptrend) :=
  ⟨fun _ => rfl, fun _ _ _ h =>
    ⟨fun hb => SymbolData.update_ok_uptrend_bothReady hb h,
     fun hb => SymbolData.update_ok_uptrend_not_bothReady hb h⟩⟩

/-- C3 (witness): on a both-ready state, the recomputed flag equals the
tolerance-weighted comparison, and it comes out true here. -/
theorem C3_witness :
    sdReadyW.bothReady 200 = true ∧
    (⟨"W", 101/100, ⟨100, 151, 200⟩, ⟨300, 351, 30300/301⟩, true, 598/905⟩ : SymbolData).is_uptrend
      = decide ((sdReadyW.slow.update 200).1.value * sdReadyW.tolerance
          < (sdReadyW.fast.update 200).1.value) := by
  have hb : sdReadyW.bothReady 200 = true := by rfl
  exact ⟨hb, (C3_uptrend_recompute.2 sdReadyW 200 _ sdReadyW_update).1 hb⟩

/-- C4: whenever a successful call ends with `is_uptrend` true (and the stored
values do not sum to zero), the stored scale is the normalized spread
`(fast - slow) / ((fast + slow) / 2)` of the freshly stored values; and on
fast = 110, slow = 100 the formula yields 10/105. -/
theorem C4_scale_formula :
    (∀ (sd : SymbolData) (p : ℚ) (sd' : SymbolData), sd.update p = Except.ok sd' →
      sd'.is_uptrend = true → sd'.fast.value + sd'.slow.value ≠ 0 →
      sd'.scale = (sd'.fast.value - sd'.slow.value) / ((sd'.fast.value + sd'.slow.value) / 2)) ∧
    scaleOf 110 100 = 10 / 105 := by
  constructor
  · intro sd p sd' h hu _
    simpa [scaleOf] using SymbolData.update_ok_scale_uptrend h hu
  · norm_num [scaleOf]

/-- C4 (witness): the freshly computed scale on the concrete uptrend call
equals the normalized spread of the stored values. -/
theorem C4_witness :
    (⟨"W", 101/100, ⟨100, 151, 200⟩, ⟨300, 351, 30300/301⟩, true, 598/905⟩ : SymbolData).scale
      = (((200 : ℚ) - 30300/301) / (((200 : ℚ) + 30300/301) / 2)) := by
  have h := C4_scale_formula.1 sdReadyW 200 _ sdReadyW_update rfl (by norm_num)
  simpa using h

/-- C5 (counterexample): a call on which `is_uptrend` is false after step 2
need not leave `is_uptrend` unmodified: from a state in an uptrend, a
both-ready call whose tolerance test fails flips `is_uptrend` from true to
false (while `scale` does keep its previous value). -/
theorem C5_counterexample :
    (⟨"C", 101/100, ⟨100, 150, 100⟩, ⟨300, 350, 100⟩, true, 598/905⟩ : SymbolData).update 100
      = Except.ok ⟨"C", 101/100, ⟨100, 151, 100⟩, ⟨300, 351, 100⟩, false, 598/905⟩ ∧
    (⟨"C", 101/100, ⟨100, 150, 100⟩, ⟨300, 350, 100⟩, true, 598/905⟩ : SymbolData).is_uptrend
      = true ∧
    (⟨"C", 101/100, ⟨100, 151, 100⟩, ⟨300, 351, 100⟩, false, 598/905⟩ : SymbolData).is_uptrend
      ≠ (⟨"C", 101/100, ⟨100, 150, 100⟩, ⟨300, 350, 100⟩, true, 598/905⟩
          : SymbolData).is_uptrend := by
  refine ⟨?_, rfl, by decide⟩
  norm_num [SymbolData.update, Ema.update, Ema.alpha]

/-- C5 (amended): on every successful call that ends with `is_uptrend` false,
`scale` is left unmodified (keeping its initial 0 before any uptrend); and on
every successful call where the accumulators are not both ready, `is_uptrend`
too is left unmodified (necessarily false).  When both are ready, however,
`is_uptrend` is recomputed and may flip from true to false. -/
theorem C5_frame_on_non_uptrend :
    ∀ (sd : SymbolData) (p : ℚ) (sd' : SymbolData), sd.update p = Except.ok sd' →
      (sd'.is_uptrend = false → sd'.scale = sd.scale) ∧
      (sd.bothReady p = false →
        sd'.is_uptrend = sd.is_uptrend ∧ sd'.scale = sd.scale ∧ sd.is_uptrend = false) :=
  fun _ _ _ h =>
    ⟨fun hu => SymbolData.update_ok_scale_not_uptrend h hu,
     fun hb => SymbolData.update_ok_not_bothReady_frame hb h⟩

/-- C5 (witness): a warm-up call on a fresh scorer leaves both `scale` and
`is_uptrend` unmodified. -/
theorem C5_witness :
    (⟨"A", 101/100, ⟨100, 1, 1⟩, ⟨300, 0, 0⟩, false, 0⟩ : SymbolData).scale
        = (SymbolData.mkSymbol "A").scale ∧
    (⟨"A", 101/100, ⟨100, 1, 1⟩, ⟨300, 0, 0⟩, false, 0⟩ : SymbolData).is_uptrend
        = (SymbolData.mkSymbol "A").is_uptrend := by
  have h : (SymbolData.mkSymbol "A").update 1
      = Except.ok ⟨"A", 101/100, ⟨100, 1, 1⟩, ⟨300, 0, 0⟩, false, 0⟩ := by rfl
  have hc := C5_frame_on_non_uptrend (SymbolData.mkSymbol "A") 1 _ h
  exact ⟨hc.1 rfl, (hc.2 rfl).1⟩

/-- Helper for C6: mapping the fallible `symbol` attribute read over a
non-empty list of instances errors at its first element. -/
theorem mapM_symbol_cons (x : SymbolData) (t : List SymbolData) :
    (x :: t).mapM (fun y => y.symbol) = (Except.error () : Except Unit (List String)) := by
  rw [List.mapM_cons]
  rfl

/-- C6 (code bug): the claim describes the intended ranked symbol list, but
the selection function cannot produce it: the constructor stores the
identifier under `_symbol` (line 82) while lines 63 and 66 read `x.symbol`,
an attribute the class never defines, so the code raises `AttributeError` on
every input whose uptrend set is non-empty and returns (the empty list) only
when no tracked instance is in an uptrend.  Evaluated on the failing input of
three uptrend instances and on two returning inputs. -/
theorem C6_attribute_error :
    (∀ l : List SymbolData, coarse_selection_function l
      = if l.filter (fun x => x.is_uptrend) = [] then Except.ok [] else Except.error ()) ∧
    coarse_selection_function
        [⟨"A", 101/100, ⟨100, 0, 0⟩, ⟨300, 0, 0⟩, true, 5⟩,
         ⟨"B", 101/100, ⟨100, 0, 0⟩, ⟨300, 0, 0⟩, true, 20⟩,
         ⟨"C", 101/100, ⟨100, 0, 0⟩, ⟨300, 0, 0⟩, true, 10⟩] = Except.error () ∧
    coarse_selection_function [] = Except.ok [] ∧
    coarse_selection_function [⟨"D", 101/100, ⟨100, 0, 0⟩, ⟨300, 0, 0⟩, false, 7⟩]
      = Except.ok [] := by
  have hchar : ∀ l : List SymbolData, coarse_selection_function l
      = if l.filter (fun x => x.is_uptrend) = [] then Except.ok [] else Except.error () := by
    intro l
    rcases hf : l.filter (fun x => x.is_uptrend) with _ | ⟨a, t⟩
    · simp only [coarse_selection_function, hf, if_true]
      rfl
    · simp only [coarse_selection_function, hf]
      rw [if_neg (List.cons_ne_nil a t)]
      rcases hs : (a :: t).insertionSort scaleGE with _ | ⟨b, bt⟩
      · have hlen := List.length_insertionSort scaleGE (a :: t)
        rw [hs] at hlen
        simp at hlen
      · have htake : ((b :: bt).take coarse_count) = b :: bt.take 9 := rfl
        rw [htake, mapM_symbol_cons]
        rfl
  refine ⟨hchar, ?_, hchar [], ?_⟩
  · rw [hchar, if_neg (by decide)]
  · rw [hchar, if_pos (by decide)]

/-- C7: the universe-change handler issues a liquidation exactly for the
removed securities with an open position (removed securities without a
position are untouched), a 10% target allocation exactly for the added
securities, and nothing else. -/
theorem C7_securities_changed (changes : SecurityChanges) :
    (∀ s, PortfolioAction.liquidate s ∈ on_securities_changed changes ↔
      ∃ sec, sec ∈ changes.removed_securities ∧ sec.invested = true ∧ sec.symbol = s) ∧
    (∀ s q, PortfolioAction.set_holdings s q ∈ on_securities_changed changes ↔
      (q = 1 / 10 ∧ ∃ sec, sec ∈ changes.added_securities ∧ sec.symbol = s)) := by
  constructor
  · intro s
    simp only [on_securities_changed, List.mem_append, List.mem_map, List.mem_filter]
    constructor
    · rintro (⟨a, ⟨ha, hi⟩, heq⟩ | ⟨a, _, heq⟩)
      · exact ⟨a, ha, hi, by injection heq⟩
      · exact absurd heq (by simp)
    · rintro ⟨sec, hm, hi, rfl⟩
      exact Or.inl ⟨sec, ⟨hm, hi⟩, rfl⟩
  · intro s q
    simp only [on_securities_changed, List.mem_append, List.mem_map, List.mem_filter]
    constructor
    · rintro (⟨a, _, heq⟩ | ⟨a, ha, heq⟩)
      · exact absurd heq (by simp)
      · injection heq with h1 h2
        exact ⟨h2.symm, a, ha, h1⟩
    · rintro ⟨rfl, sec, hm, rfl⟩
      exact Or.inr ⟨sec, hm, rfl⟩

/-- C7 (witness): with removed = [R (invested), S (not invested)] and
added = [T], the handler liquidates exactly R and allocates 10% to T. -/
theorem C7_witness :
    on_securities_changed ⟨[⟨"R", true⟩, ⟨"S", false⟩], [⟨"T", false⟩]⟩
      = [PortfolioAction.liquidate "R", PortfolioAction.set_holdings "T" (1 / 10)] ∧
    PortfolioAction.liquidate "R"
      ∈ on_securities_changed ⟨[⟨"R", true⟩, ⟨"S", false⟩], [⟨"T", false⟩]⟩ := by
  refine ⟨rfl, ?_⟩
  exact ((C7_securities_changed ⟨[⟨"R", true⟩, ⟨"S", false⟩], [⟨"T", false⟩]⟩).1 "R").mpr
    ⟨⟨"R", true⟩, by simp, rfl, rfl⟩

/-- C8 (counterexample): from a fresh scorer fed 1 then 2 then 2, the second
and third calls feed the identical sample twice in a row; `is_uptrend` and
`scale` are unchanged by the replay even though the price 2 does not equal
the smoothed value 103/101 of the accumulator (which the replay does change) — so
"unchanged `is_uptrend` and `scale`" holds strictly more often than "price
equals the smoothed value of each accumulator". -/
theorem C8_counterexample :
    runUpdates (SymbolData.mkSymbol "A") [1, 2]
      = Except.ok ⟨"A", 101/100, ⟨100, 2, 103/101⟩, ⟨300, 0, 0⟩, false, 0⟩ ∧
    runUpdates (SymbolData.mkSymbol "A") [1, 2, 2]
      = Except.ok ⟨"A", 101/100, ⟨100, 3, 10601/10201⟩, ⟨300, 0, 0⟩, false, 0⟩ ∧
    (⟨"A", 101/100, ⟨100, 3, 10601/10201⟩, ⟨300, 0, 0⟩, false, 0⟩ : SymbolData).is_uptrend
      = (⟨"A", 101/100, ⟨100, 2, 103/101⟩, ⟨300, 0, 0⟩, false, 0⟩ : SymbolData).is_uptrend ∧
    (⟨"A", 101/100, ⟨100, 3, 10601/10201⟩, ⟨300, 0, 0⟩, false, 0⟩ : SymbolData).scale
      = (⟨"A", 101/100, ⟨100, 2, 103/101⟩, ⟨300, 0, 0⟩, false, 0⟩ : SymbolData).scale ∧
    (2 : ℚ) ≠ (⟨"A", 101/100, ⟨100, 2, 103/101⟩, ⟨300, 0, 0⟩, false, 0⟩
        : SymbolData).fast.value ∧
    (⟨"A", 101/100, ⟨100, 3, 10601/10201⟩, ⟨300, 0, 0⟩, false, 0⟩ : SymbolData).fast.value
      ≠ (⟨"A", 101/100, ⟨100, 2, 103/101⟩, ⟨300, 0, 0⟩, false, 0⟩
        : SymbolData).fast.value := by
  refine ⟨?_, ?_, rfl, rfl, by norm_num, by norm_num⟩ <;>
    norm_num [runUpdates, SymbolData.update, Ema.update, Ema.alpha, SymbolData.mkSymbol,
      Ema.mkPeriod]

/-- C8 (amended): the EMA recurrence has the input price as a fixed point of
the smoothed value exactly when the price equals the current smoothed value
(so for any other price the replayed call still changes a seeded
value of a seeded accumulator); and a replayed sample equal to both seeded smoothed
values leaves the smoothed values, `is_uptrend` and `scale` unchanged (with
positive price and tolerance at least 1).  Unchanged `is_uptrend`/`scale`
does not conversely require the fixed-point condition (see the
counterexample: warm-up calls change the values but not the flags). -/
theorem C8_fixed_point :
    (∀ (e : Ema) (p : ℚ), e.count ≠ 0 → ((e.update p).1.value = e.value ↔ p = e.value)) ∧
    (∀ (sd : SymbolData) (p : ℚ), sd.is_uptrend = false → 1 ≤ sd.tolerance → 0 < p →
      sd.fast.count ≠ 0 → sd.slow.count ≠ 0 → sd.fast.value = p → sd.slow.value = p →
      ∃ sd', sd.update p = Except.ok sd' ∧ sd'.fast.value = sd.fast.value ∧
        sd'.slow.value = sd.slow.value ∧ sd'.is_uptrend = sd.is_uptrend ∧
        sd'.scale = sd.scale) := by
  constructor
  · exact fun e p hc => Ema.update_value_eq_iff hc
  · intro sd p hu htol hp hfc hsc hfv hsv
    obtain ⟨sd', hok⟩ := SymbolData.update_ok_of_not_uptrend p hu
    have hfast : sd'.fast = (sd.fast.update p).1 := (SymbolData.update_ok_frame hok).2.2
    have hfval : sd'.fast.value = sd.fast.value := by
      rw [hfast]
      exact (Ema.update_value_eq_iff hfc).mpr hfv.symm
    have hsval : sd'.slow.value = sd.slow.value := by
      rcases hfb : (sd.fast.update p).2 with _ | _
      · rw [SymbolData.update_ok_slow_of_fastNotReady hfb hok]
      · rw [SymbolData.update_ok_slow_of_fastReady hfb hok]
        exact (Ema.update_value_eq_iff hsc).mpr hsv.symm
    have hup : sd'.is_uptrend = sd.is_uptrend := by
      rcases hb : sd.bothReady p with _ | _
      · exact SymbolData.update_ok_uptrend_not_bothReady hb hok
      · rw [SymbolData.update_ok_uptrend_bothReady hb hok, hu]
        rw [decide_eq_false_iff_not, not_lt]
        have h1 : (sd.slow.update p).1.value = sd.slow.value := by
          rcases hb2 : (sd.slow.update p) with ⟨s1, sb⟩
          have := (Ema.update_value_eq_iff hsc).mpr hsv.symm
          rwa [hb2] at this
        have h2 : (sd.fast.update p).1.value = sd.fast.value :=
          (Ema.update_value_eq_iff hfc).mpr hfv.symm
        rw [h1, h2, hfv, hsv]
        calc p = p * 1 := (mul_one p).symm
          _ ≤ p * sd.tolerance := by
              exact mul_le_mul_of_nonneg_left htol hp.le
    have hscale : sd'.scale = sd.scale :=
      SymbolData.update_ok_scale_not_uptrend hok (by rw [hup, hu])
    exact ⟨sd', hok, hfval, hsval, hup, hscale⟩

/-- C8 (witness): a seeded accumulator at value 7 is unchanged by a sample at
price 7, and a scorer whose seeded accumulators both sit at 7 replays a
sample at 7 with values, flag and scale all unchanged. -/
theorem C8_witness :
    ((⟨100, 5, 7⟩ : Ema).update 7).1.value = (⟨100, 5, 7⟩ : Ema).value ∧
    (∃ sd', (⟨"F", 101/100, ⟨100, 5, 7⟩, ⟨300, 4, 7⟩, false, 3⟩ : SymbolData).update 7
        = Except.ok sd' ∧
      sd'.fast.value
        = (⟨"F", 101/100, ⟨100, 5, 7⟩, ⟨300, 4, 7⟩, false, 3⟩ : SymbolData).fast.value ∧
      sd'.slow.value
        = (⟨"F", 101/100, ⟨100, 5, 7⟩, ⟨300, 4, 7⟩, false, 3⟩ : SymbolData).slow.value ∧
      sd'.is_uptrend
        = (⟨"F", 101/100, ⟨100, 5, 7⟩, ⟨300, 4, 7⟩, false, 3⟩ : SymbolData).is_uptrend ∧
      sd'.scale
        = (⟨"F", 101/100, ⟨100, 5, 7⟩, ⟨300, 4, 7⟩, false, 3⟩ : SymbolData).scale) := by
  constructor
  · exact (C8_fixed_point.1 ⟨100, 5, 7⟩ 7 (by decide)).mpr rfl
  · exact C8_fixed_point.2 ⟨"F", 101/100, ⟨100, 5, 7⟩, ⟨300, 4, 7⟩, false, 3⟩ 7
      rfl (by norm_num) (by norm_num) (by decide) (by decide) rfl rfl

/-- C9: `is_uptrend` starts false; readiness is monotone; and from a fresh
scorer no sequence of updates can ever reach the `NameError` branch (every
run returns `ok`), because `is_uptrend` can only be true once both
accumulators are past their warm-up thresholds — on such calls the guarded
branch runs and binds the locals before the scale computation reads them. -/
theorem C9_no_nameError :
    (∀ s, (SymbolData.mkSymbol s).is_uptrend = false) ∧
    (∀ (e : Ema) (p : ℚ), e.period ≤ e.count → (e.update p).2 = true) ∧
    (∀ (s : String) (ps : List ℚ), ∃ sd',
      runUpdates (SymbolData.mkSymbol s) ps = Except.ok sd' ∧
      (sd'.is_uptrend = true → 100 ≤ sd'.fast.count ∧ 300 ≤ sd'.slow.count)) := by
  refine ⟨fun _ => rfl, fun e p h => e.update_ready_of_ready p h, ?_⟩
  intro s ps
  obtain ⟨sd', hrun, hinv⟩ :=
    runUpdates_inv BaseInv (fun _ => True)
      (fun sd p _ hp => baseInv_step sd p hp) ps (SymbolData.mkSymbol s)
      (fun _ _ => trivial) (baseInv_mkSymbol s)
  refine ⟨sd', hrun, ?_⟩
  intro hu
  have h1 := hinv.1 hu
  rw [hinv.2.1, hinv.2.2] at h1
  exact h1

/-- C9 (witness): an already-warm accumulator stays ready, and a one-step run
from a fresh scorer is evaluated error-free. -/
theorem C9_witness :
    ((⟨100, 200, 5⟩ : Ema).update 3).2 = true ∧
    (∃ sd', runUpdates (SymbolData.mkSymbol "A") [1] = Except.ok sd' ∧
      (sd'.is_uptrend = true → 100 ≤ sd'.fast.count ∧ 300 ≤ sd'.slow.count)) :=
  ⟨C9_no_nameError.2.1 ⟨100, 200, 5⟩ 3 (by decide), C9_no_nameError.2.2 "A" [1]⟩

theorem posInv_step {sd : SymbolData} {p : ℚ} (hp : 0 < p) (hinv : PosInv sd) :
    ∃ sd', sd.update p = Except.ok sd' ∧ PosInv sd' := by
  obtain ⟨sd', hok, hbase⟩ := baseInv_step sd p hinv.1
  have htol : sd'.tolerance = sd.tolerance := (SymbolData.update_ok_frame hok).2.1
  have hfast : sd'.fast = (sd.fast.update p).1 := (SymbolData.update_ok_frame hok).2.2
  have hfper1 : 1 ≤ sd.fast.period := by rw [hinv.1.2.1]; omega
  have hsper1 : 1 ≤ sd.slow.period := by rw [hinv.1.2.2]; omega
  have hfpos : 0 < sd'.fast.value := by
    rw [hfast]
    refine Ema.update_value_pos hfper1 hp ?_
    by_cases hc : sd.fast.count = 0
    · exact Or.inl hc
    · exact Or.inr (hinv.2.2.1 hc)
  have hspos : sd'.slow.count ≠ 0 → 0 < sd'.slow.value := by
    rcases hfb : (sd.fast.update p).2 with _ | _
    · rw [SymbolData.update_ok_slow_of_fastNotReady hfb hok]
      exact hinv.2.2.2.1
    · rw [SymbolData.update_ok_slow_of_fastReady hfb hok]
      intro _
      refine Ema.update_value_pos hsper1 hp ?_
      by_cases hc : sd.slow.count = 0
      · exact Or.inl hc
      · exact Or.inr (hinv.2.2.2.1 hc)
  refine ⟨sd', hok, hbase, by rw [htol]; exact hinv.2.1, fun _ => hfpos, hspos, ?_⟩
  by_cases hu : sd'.is_uptrend = true
  · have hb : sd.bothReady p = true := by
      rcases hb2 : sd.bothReady p with _ | _
      · have := SymbolData.update_ok_not_bothReady_frame hb2 hok
        rw [hu] at this
        exact absurd this.1.symm (by rw [this.2.2]; simp)
      · rfl
    have hfr : (sd.fast.update p).2 = true := by
      have := hb
      rw [SymbolData.bothReady, Bool.and_eq_true] at this
      exact this.1
    have hslow : sd'.slow = (sd.slow.update p).1 :=
      SymbolData.update_ok_slow_of_fastReady hfr hok
    have hlt : sd'.slow.value * sd.tolerance < sd'.fast.value := by
      have h2 := SymbolData.update_ok_uptrend_bothReady hb hok
      rw [hu] at h2
      have h3 := of_decide_eq_true h2.symm
      rw [← hslow, ← hfast] at h3
      exact h3
    have hscnt : sd'.slow.count ≠ 0 := by
      rw [hslow, Ema.update_count]
      omega
    have hs0 : 0 < sd'.slow.value := hspos hscnt
    have hfs : sd'.slow.value < sd'.fast.value := by
      have : sd'.slow.value * 1 ≤ sd'.slow.value * sd.tolerance :=
        mul_le_mul_of_nonneg_left hinv.2.1 hs0.le
      rw [mul_one] at this
      exact lt_of_le_of_lt this hlt
    have hscale : sd'.scale = scaleOf sd'.fast.value sd'.slow.value :=
      SymbolData.update_ok_scale_uptrend hok hu
    have hpos2 : 0 < sd'.scale := by
      rw [hscale, scaleOf]
      have h4 : 0 < sd'.fast.value - sd'.slow.value := by linarith
      have h5 : 0 < (sd'.fast.value + sd'.slow.value) / 2 := by linarith
      exact div_pos h4 h5
    exact ⟨hpos2.le, fun _ => hpos2⟩
  · have hu' : sd'.is_uptrend = false := by
      rcases h : sd'.is_uptrend with _ | _
      · rfl
      · exact absurd h hu
    have hscale : sd'.scale = sd.scale :=
      SymbolData.update_ok_scale_not_uptrend hok hu'
    refine ⟨by rw [hscale]; exact hinv.2.2.2.2.1, fun h => absurd h hu⟩

/-- C10: from a fresh scorer, any run over strictly positive prices succeeds
and maintains `scale ≥ 0`; moreover whenever the final state is in an uptrend
(so its scale was freshly recomputed on the call that set the flag), the
scale is strictly positive, since the uptrend test forces the fast value
above 1.01 times the positive slow value. -/
theorem C10_scale_nonneg (s : String) (ps : List ℚ) (hpos : ∀ p, p ∈ ps → 0 < p) :
    ∃ sd', runUpdates (SymbolData.mkSymbol s) ps = Except.ok sd' ∧
      0 ≤ sd'.scale ∧ (sd'.is_uptrend = true → 0 < sd'.scale) := by
  obtain ⟨sd', hrun, hinv⟩ :=
    runUpdates_inv PosInv (fun p => 0 < p)
      (fun sd p hq hp => posInv_step hq hp) ps (SymbolData.mkSymbol s) hpos
      ⟨baseInv_mkSymbol s, by norm_num [SymbolData.mkSymbol],
        fun h => absurd rfl h, fun h => absurd rfl h, le_refl 0,
        fun h => by simp [SymbolData.mkSymbol] at h⟩
  exact ⟨sd', hrun, hinv.2.2.2.2.1, hinv.2.2.2.2.2⟩

/-- C10 (witness): a two-step run over the positive prices 1, 2 keeps the
scale at a non-negative value. -/
theorem C10_witness :
    ∃ sd', runUpdates (SymbolData.mkSymbol "A") [1, 2] = Except.ok sd' ∧
      0 ≤ sd'.scale ∧ (sd'.is_uptrend = true → 0 < sd'.scale) :=
  C10_scale_nonneg "A" [1, 2]
    (by
      intro p hp
      rw [List.mem_cons, List.mem_cons] at hp
      rcases hp with rfl | rfl | h
      · norm_num
      · norm_num
      · exact absurd h (by simp))
